import Mathlib

/-!
# Verification of `reprobate` — budget-controlled repr for Python objects

Shallow embedding of `src/reprobate/core.py` and `src/reprobate/registry.py`.

Modelling decisions:
* Python text is modelled as `List Char` (`Text`); `len` is `List.length`.
* Budgets are `Int`, because the source's intermediate budget arithmetic
  (`available = remaining - sep_cost - reserve`, `available // 2`) can go
  negative; Python floor division is `Int.fdiv` and Python's `s[:k]` slice
  semantics (including negative `k`) is `pySlice`.
* The Python object graph is a heap: object identities (`id(obj)`) are `Nat`
  indices into a list of `Cell`s, so self-referencing / shared structures are
  representable.  A `Cell` carries the data `core.py` inspects: the type's
  `__budget_repr__` hook (if any), the type's `__mro__` as a list of type
  names (for the registry lookup), the type's `__name__`, and the value's
  shape for the generic fallback.
* The contextvars `_seen` (cycle guard) is modelled as explicit state
  `Ctx := Option (Finset Nat)` threaded through every call and returned on
  both the success and exception path; `none` models the unset contextvar
  (no active top-level `render`), raising `LookupError`/`RuntimeError` is the
  `.notInRender` error.  The `_policy` contextvar is the read-only `pol`
  field of the environment.
* Exceptions raised by `__budget_repr__` hooks or registry formatters are
  modelled by letting those formatters return `Except Unit Text`; the
  propagated Python exception is the `.hookFail` error outcome.  Formatters
  are abstracted as functions of the object id and the budget.
* Python's untyped recursion is given fuel, decremented at each
  `render_child` entry; `render` supplies `heap.cells.length + 2`, which is
  proven sufficient (`renderOk_of_noFormatter`), so out-of-fuel never occurs.
* Elided details of the Python runtime (not of the repository): `repr`
  escaping of strings/bytes (modelled as quote-wrapping; no claim depends on
  escape sequences), `bytes.decode("ascii", errors="replace")` (byte content
  is modelled as characters), `Counter.most_common` ordering (counter entries
  are stored already in that order), and reflective attribute discovery
  (`vars`/`__slots__`/`dataclasses.fields` filtering; a cell stores the
  discovered public attribute list directly).
-/

namespace Reprobate

/-- Python text modelled as a list of characters. -/
abbrev Text := List Char

/-- Coerce a Lean string literal to `Text`. -/
def txt (s : String) : Text := s.data

/-- Python's `s[:k]` for an arbitrary (possibly negative) stop index `k`. -/
def pySlice (s : Text) (k : Int) : Text :=
  if 0 ≤ k then s.take k.toNat else s.take (s.length - (-k).toNat)

/-- `core.py` line 10: `MIN_BUDGET = 5`. -/
def MIN_BUDGET : Int := 5

/-- `core.py` line 11: `MIN_CHILD_BUDGET = 15`. -/
def MIN_CHILD_BUDGET : Int := 15

/-- `core.py` line 21: `CIRCULAR = "<...>"`. -/
def CIRCULAR : Text := txt "<...>"

/-- Python `", ".join parts`. -/
def joinComma (parts : List Text) : Text := List.intercalate (txt ", ") parts

/-- The shape of a Python value, as discriminated by the `isinstance` chain
of `_render_generic` (`core.py` lines 101-134).  `prim` covers
`None`/`bool`/`int`/`float` carrying their `repr`; a tuple whose type has
`_fields` (a namedtuple) carries `some fields`. -/
inductive Shape where
  | prim (r : Text)
  | strV (s : Text)
  | bytesV (s : Text)
  | defaultdictV (factoryName : String) (entries : List (Nat × Nat))
  | counterV (entries : List (Nat × Nat))
  | dictV (entries : List (Nat × Nat))
  | tupleV (fields : Option (List String)) (elems : List Nat)
  | listV (elems : List Nat)
  | setV (frozen : Bool) (elems : List Nat)
  | dequeV (elems : List Nat)
  | objV (reprStr : Option Text) (isDataclass : Bool) (attrs : List (String × Nat))
deriving Inhabited

/-- `core.py` line 65: `isinstance(obj, (type(None), bool, int, float, str,
bytes))` — the immutable scalar kinds exempt from cycle tracking. -/
def Shape.isExempt : Shape → Bool
  | .prim _ => true
  | .strV _ => true
  | .bytesV _ => true
  | _ => false

/-- A formatter from the registry, or a `__budget_repr__` bound hook:
receives the object (by id) and the budget, returns text or raises. -/
abbrev Formatter := Nat → Int → Except Unit Text

/-- One heap cell: everything `core.py` inspects about a live object. -/
structure Cell where
  /-- `type(obj).__name__`. -/
  typeName : String
  /-- `type(obj).__mro__`, as type names, for `get_renderer`. -/
  mro : List String
  /-- `getattr(type(obj), "__budget_repr__", None)` (`core.py` line 88). -/
  hook : Option Formatter
  shape : Shape

/-- A cell for Python `None`; used as the (never-reachable in a real object
graph) default for a dangling object id. -/
def defaultCell : Cell :=
  { typeName := "NoneType", mro := ["NoneType", "object"], hook := none,
    shape := .prim (txt "None") }

/-- The object heap: ids are indices into `cells`. -/
structure Heap where
  cells : List Cell

/-- Dereference an object id. -/
def Heap.lookup (h : Heap) (i : Nat) : Cell := h.cells.getD i defaultCell

/-- The `_registry` dict of `registry.py`, keyed by type name. -/
abbrev Registry := String → Option Formatter

/-- `registry.py` lines 27-32: walk the MRO, return the formatter of the
first (nearest-ancestor) registered class. -/
def get_renderer (reg : Registry) (mro : List String) : Option Formatter :=
  match mro with
  | [] => none
  | k :: rest =>
    match reg k with
    | some r => some r
    | none => get_renderer reg rest

/-- The allocation policy (`core.py` line 15). -/
inductive Policy where
  | greedy
  | even
deriving DecidableEq

/-- Immutable per-process environment: the heap, the registry contents and
the `_policy` contextvar value in effect for the call. -/
structure Env where
  heap : Heap
  reg : Registry
  pol : Policy

/-- Runtime error outcomes: `RuntimeError` from `render_child` outside
`render` (`core.py` lines 69-72), a propagated exception from a
hook/registry formatter, and exhaustion of the recursion fuel. -/
inductive RErr where
  | notInRender
  | hookFail
  | outOfFuel
deriving DecidableEq

/-- The `_seen` contextvar: `none` when unset (no active `render`). -/
abbrev Ctx := Option (Finset Nat)

/-- Result of a stateful rendering step: outcome plus the `_seen` state. -/
abbrev RRes (α : Type) := Except RErr α × Ctx

/-- `core.py` lines 137-141: `_render_primitive`. -/
def render_primitive (r : Text) (b : Int) : Text :=
  if (r.length : Int) ≤ b then r else pySlice r (b - 1) ++ txt "…"

/-- `repr` of a Python string, with escaping elided: quote-wrapped. -/
def pyReprStr (s : Text) : Text := txt "'" ++ s ++ txt "'"

/-- `core.py` lines 144-153: `_render_str`. -/
def render_str (s : Text) (b : Int) : Text :=
  let r := pyReprStr s
  if (r.length : Int) ≤ b then r
  else if b < 6 then pySlice r b
  else
    let quote := r.take 1
    let inner := b - 5
    quote ++ s.take inner.toNat ++ txt "..." ++ quote

/-- `repr` of a Python bytes value, with escaping elided. -/
def pyReprBytes (s : Text) : Text := txt "b'" ++ s ++ txt "'"

/-- `core.py` lines 156-163: `_render_bytes`.  NOTE the source reserves
`inner = budget - 5` but the assembled form `b'` + chars + `...` + `'` has
6 characters of overhead, so the truncated branch produces `budget + 1`
characters when the byte content is long enough. -/
def render_bytes (s : Text) (b : Int) : Text :=
  let r := pyReprBytes s
  if (r.length : Int) ≤ b then r
  else if b < 6 then pySlice r b
  else
    let inner := b - 5
    txt "b'" ++ s.take inner.toNat ++ txt "...'"

/-- Python `len(val)` for shapes supporting `__len__` (used by
`_type_stub`); `none` models `hasattr(val, "__len__")` being false. -/
def Shape.pyLen : Shape → Option Nat
  | .prim _ => none
  | .strV s => some s.length
  | .bytesV s => some s.length
  | .defaultdictV _ es => some es.length
  | .counterV es => some es.length
  | .dictV es => some es.length
  | .tupleV _ es => some es.length
  | .listV es => some es.length
  | .setV _ es => some es.length
  | .dequeV es => some es.length
  | .objV _ _ _ => none

/-- `core.py` lines 292-300: `_type_stub`. -/
def type_stub (E : Env) (v : Nat) : Text :=
  let cell := E.heap.lookup v
  match cell.shape.pyLen with
  | some n => txt ("<" ++ cell.typeName ++ "(" ++ toString n ++ ")>")
  | none => txt ("<" ++ cell.typeName ++ ">")

/-- `core.py` lines 351-365: phase 2 of `render_attrs` — stub the remaining
attributes with type tags; no recursive rendering, hence pure. -/
def attrsPhase2 (E : Env) (pending : List (String × Nat)) (n idx : Nat)
    (remaining : Int) (parts : List Text) : List Text × Nat :=
  match pending with
  | [] => (parts, idx)
  | (name, v) :: restP =>
    let stub := type_stub E v
    let part := txt (name ++ "=") ++ stub
    let sep : Int := if parts.isEmpty then 0 else 2
    let rest : Nat := n - idx - 1
    let reserve : Int :=
      if rest > 0 then ((txt (", ..." ++ toString rest ++ " more")).length : Int) else 0
    if (part.length : Int) + sep + reserve > remaining then (parts, idx)
    else attrsPhase2 E restP n (idx + 1) (remaining - ((part.length : Int) + sep))
      (parts ++ [part])

/-- `r.startswith("<") and " object at 0x" in r` (`core.py` line 451). -/
def isDefaultRepr (r : Text) : Bool :=
  (txt "<").isPrefixOf r && decide (List.IsInfix (txt " object at 0x") r)

mutual

/-- `core.py` lines 53-82: `render_child`.  The fuel `f` bounds the depth of
the recursion; it is decremented exactly when this function descends into
`_render_inner`, and `render` supplies enough of it (see
`renderOk_of_noFormatter`).  The budget floor check precedes everything,
as in the source. -/
def render_child (E : Env) (f : Nat) (obj : Nat) (b : Int) (c : Ctx) :
    RRes Text :=
  if b < MIN_BUDGET then (.ok (pySlice (txt "...") b), c)
  else if (E.heap.lookup obj).shape.isExempt then
    match f with
    | 0 => (.error .outOfFuel, c)
    | f' + 1 => _render_inner E f' obj b c
  else
    match c with
    | none => (.error .notInRender, none)
    | some seen =>
      if obj ∈ seen then (.ok (pySlice CIRCULAR b), c)
      else
        match f with
        | 0 => (.error .outOfFuel, c)
        | f' + 1 =>
          -- `seen.add(obj_id)`; `try: return _render_inner(...)`
          -- `finally: seen.discard(obj_id)` — the discard happens on the
          -- state the inner call left behind, on both outcome paths.
          match _render_inner E f' obj b (some (insert obj seen)) with
          | (res, c') => (res, c'.map (·.erase obj))

termination_by (f, 0, 0)

/-- `core.py` lines 85-98: `_render_inner` — protocol hook, then registry,
then generic fallback; hook/registry output is clipped to the budget. -/
def _render_inner (E : Env) (f : Nat) (obj : Nat) (b : Int) (c : Ctx) :
    RRes Text :=
  let cell := E.heap.lookup obj
  match cell.hook with
  | some m =>
    match m obj b with
    | .ok s => (.ok (pySlice s b), c)
    | .error _ => (.error .hookFail, c)
  | none =>
    match get_renderer E.reg cell.mro with
    | some r =>
      match r obj b with
      | .ok s => (.ok (pySlice s b), c)
      | .error _ => (.error .hookFail, c)
    | none => _render_generic E f obj b c

termination_by (f, 9, 0)

/-- `core.py` lines 101-134: `_render_generic`.  The source's `isinstance`
chain maps to disjoint shape constructors; the namedtuple test
(`isinstance(obj, tuple) and hasattr(type(obj), "_fields")`, checked before
the plain sequence branch) is the `tupleV (some fields)` case. -/
def _render_generic (E : Env) (f : Nat) (obj : Nat) (b : Int) (c : Ctx) :
    RRes Text :=
  let cell := E.heap.lookup obj
  match cell.shape with
  | .prim r => (.ok (render_primitive r b), c)
  | .strV s => (.ok (render_str s b), c)
  | .bytesV s => (.ok (render_bytes s b), c)
  | .defaultdictV fn entries => _render_defaultdict E f fn entries b c
  | .counterV entries => _render_counter E f entries b c
  | .dictV entries => _render_dict E f entries b c
  | .tupleV (some fields) elems =>
    _render_namedtuple E f cell.typeName fields elems b c
  | .tupleV none elems => _render_sequence E f true elems b c
  | .listV elems => _render_sequence E f false elems b c
  | .setV frozen elems => _render_set E f frozen elems b c
  | .dequeV elems => _render_deque E f elems b c
  | .objV rs dc attrs => _render_object E f cell.typeName rs dc attrs b c

termination_by (f, 8, 0)

/-- `core.py` lines 180-197: the entry loop of `_render_dict`.  `n` is the
total entry count, `shown`/`remaining`/`parts` are the loop variables. -/
def dictLoop (E : Env) (f : Nat) (pending : List (Nat × Nat)) (n shown : Nat)
    (remaining : Int) (parts : List Text) (c : Ctx) :
    RRes (List Text × Nat) :=
  match pending with
  | [] => (.ok (parts, shown), c)
  | (key, value) :: rest =>
    let sep : Int := if parts.isEmpty then 0 else 2
    let omitted : Nat := n - shown
    let reserve : Int :=
      if omitted > 1 then
        ((txt (", ..." ++ toString (omitted - 1) ++ " more")).length : Int)
      else 0
    let available := remaining - sep - reserve
    match render_child E f key (min (available.fdiv 2) 40) c with
    | (.error e, c') => (.error e, c')
    | (.ok keyR, c') =>
      let pfx := keyR ++ txt ": "
      let valBudget := available - (pfx.length : Int)
      if valBudget < MIN_CHILD_BUDGET then (.ok (parts, shown), c')
      else
        match render_child E f value valBudget c' with
        | (.error e, c'') => (.error e, c'')
        | (.ok valR, c'') =>
          let part := pfx ++ valR
          dictLoop E f rest n (shown + 1)
            (remaining - ((part.length : Int) + sep)) (parts ++ [part]) c''

termination_by (f, 3, pending.length)

/-- `core.py` lines 166-203: `_render_dict`. -/
def _render_dict (E : Env) (f : Nat) (entries : List (Nat × Nat)) (b : Int)
    (c : Ctx) : RRes Text :=
  if entries.isEmpty then (.ok (txt "\x7b\x7d"), c)
  else
    let n := entries.length
    let tag := txt ("\x7b..." ++ toString n ++ " items\x7d")
    if b < (tag.length : Int) then
      (.ok (if b ≥ 2 then pySlice (txt "\x7b...\x7d") b else pySlice (txt "\x7b") b), c)
    else if b ≤ (tag.length : Int) then (.ok tag, c)
    else
      match dictLoop E f entries n 0 (b - 2) [] c with
      | (.error e, c') => (.error e, c')
      | (.ok (parts, shown), c') =>
        let omitted := n - shown
        let parts2 :=
          if omitted > 0 then parts ++ [txt ("..." ++ toString omitted ++ " more")]
          else parts
        (.ok (txt "\x7b" ++ joinComma parts2 ++ txt "\x7d"), c')

termination_by (f, 5, 0)

/-- `core.py` lines 221-234: the head loop of `_render_sequence`.
`tail_parts` is empty while this loop runs, so the source's
`omitted = n - head_idx - len(tail_parts)` is `n - headIdx` here. -/
def seqLoop (E : Env) (f : Nat) (pending : List Nat) (n headIdx : Nat)
    (remaining : Int) (headParts : List Text) (c : Ctx) :
    RRes (List Text × Nat × Int) :=
  match pending with
  | [] => (.ok (headParts, headIdx, remaining), c)
  | x :: rest =>
    let sep : Int := if headParts.isEmpty then 0 else 2
    let omitted : Nat := n - headIdx
    let reserve : Int :=
      if omitted > 1 then
        ((txt (", ..." ++ toString (omitted - 1) ++ " more")).length : Int)
      else 0
    let available := remaining - sep - reserve
    if available < MIN_CHILD_BUDGET then (.ok (headParts, headIdx, remaining), c)
    else
      match render_child E f x available c with
      | (.error e, c') => (.error e, c')
      | (.ok part, c') =>
        seqLoop E f rest n (headIdx + 1)
          (remaining - ((part.length : Int) + sep)) (headParts ++ [part]) c'

termination_by (f, 3, pending.length)

/-- `core.py` lines 206-248: `_render_sequence` (lists, tuples, deques);
head entries, then a single tail attempt, then the `...N more` marker. -/
def _render_sequence (E : Env) (f : Nat) (isTuple : Bool) (elems : List Nat)
    (b : Int) (c : Ctx) : RRes Text :=
  let openB := if isTuple then txt "(" else txt "["
  let closeB := if isTuple then txt ")" else txt "]"
  if elems.isEmpty then (.ok (openB ++ closeB), c)
  else
    let n := elems.length
    let tag := openB ++ txt ("..." ++ toString n ++ " items") ++ closeB
    if b ≤ (tag.length : Int) then (.ok (pySlice tag b), c)
    else
      match seqLoop E f elems n 0 (b - 2) [] c with
      | (.error e, c') => (.error e, c')
      | (.ok (headParts, headIdx, remaining), c') =>
        let omitted := n - headIdx
        if omitted > 1 ∧ remaining > MIN_CHILD_BUDGET + 15 then
          let tailBudget :=
            min (remaining -
              ((txt (", ..." ++ toString (omitted - 1) ++ " more, ")).length : Int))
              (remaining.fdiv 3)
          if tailBudget ≥ MIN_CHILD_BUDGET then
            match render_child E f (elems.getLast?.getD 0) tailBudget c' with
            | (.error e, c'') => (.error e, c'')
            | (.ok tailR, c'') =>
              let omitted2 := omitted - 1
              let mid :=
                if omitted2 > 0 then [txt ("..." ++ toString omitted2 ++ " more")]
                else []
              (.ok (openB ++ joinComma (headParts ++ mid ++ [tailR]) ++ closeB), c'')
          else
            let mid :=
              if omitted > 0 then [txt ("..." ++ toString omitted ++ " more")]
              else []
            (.ok (openB ++ joinComma (headParts ++ mid) ++ closeB), c')
        else
          let mid :=
            if omitted > 0 then [txt ("..." ++ toString omitted ++ " more")]
            else []
          (.ok (openB ++ joinComma (headParts ++ mid) ++ closeB), c')

termination_by (f, 5, 0)

/-- `core.py` lines 271-283: the element loop of `_render_set`. -/
def setLoop (E : Env) (f : Nat) (pending : List Nat) (n shown : Nat)
    (remaining : Int) (parts : List Text) (c : Ctx) :
    RRes (List Text × Nat) :=
  match pending with
  | [] => (.ok (parts, shown), c)
  | x :: rest =>
    let sep : Int := if parts.isEmpty then 0 else 2
    let omitted : Nat := n - shown
    let reserve : Int :=
      if omitted > 1 then
        ((txt (", ..." ++ toString (omitted - 1) ++ " more")).length : Int)
      else 0
    let available := remaining - sep - reserve
    if available < MIN_CHILD_BUDGET then (.ok (parts, shown), c)
    else
      match render_child E f x available c with
      | (.error e, c') => (.error e, c')
      | (.ok part, c') =>
        setLoop E f rest n (shown + 1)
          (remaining - ((part.length : Int) + sep)) (parts ++ [part]) c'

termination_by (f, 3, pending.length)

/-- `core.py` lines 251-289: `_render_set`. -/
def _render_set (E : Env) (f : Nat) (frozen : Bool) (elems : List Nat)
    (b : Int) (c : Ctx) : RRes Text :=
  let openB := (if frozen then txt "frozenset(" else txt "") ++ txt "\x7b"
  let closeB := txt "\x7d" ++ (if frozen then txt ")" else txt "")
  if elems.isEmpty then
    (.ok (pySlice (if frozen then txt "frozenset()" else txt "set()") b), c)
  else
    let n := elems.length
    let tag := openB ++ txt ("..." ++ toString n ++ " items") ++ closeB
    if b ≤ (tag.length : Int) then (.ok (pySlice tag b), c)
    else
      match setLoop E f elems n 0 (b - (openB.length : Int) - (closeB.length : Int)) [] c with
      | (.error e, c') => (.error e, c')
      | (.ok (parts, shown), c') =>
        let omitted := n - shown
        let parts2 :=
          if omitted > 0 then parts ++ [txt ("..." ++ toString omitted ++ " more")]
          else parts
        (.ok (openB ++ joinComma parts2 ++ closeB), c')

termination_by (f, 5, 0)

/-- `core.py` lines 326-349: phase 1 (full render) of `render_attrs`;
`pending` is `attr_items[idx:]`. -/
def attrsPhase1 (E : Env) (f : Nat) (pending : List (String × Nat))
    (n idx : Nat) (remaining : Int) (parts : List Text) (c : Ctx) :
    RRes (List Text × Nat × Int) :=
  match pending with
  | [] => (.ok (parts, idx, remaining), c)
  | (name, v) :: restP =>
    let sep : Int := if parts.isEmpty then 0 else 2
    let rest : Nat := n - idx
    let reserve : Int :=
      if rest > 1 then
        ((txt (", ..." ++ toString (rest - 1) ++ " more")).length : Int)
      else 0
    let available0 := remaining - sep - reserve
    let available :=
      if E.pol = .even ∧ rest > 1 then
        min available0 ((remaining - ((rest : Int) - 1) * 2).fdiv (rest : Int))
      else available0
    let pfx := txt (name ++ "=")
    let valBudget := available - (pfx.length : Int)
    if valBudget < MIN_CHILD_BUDGET then (.ok (parts, idx, remaining), c)
    else
      match render_child E f v valBudget c with
      | (.error e, c') => (.error e, c')
      | (.ok valR, c') =>
        let part := pfx ++ valR
        attrsPhase1 E f restP n (idx + 1)
          (remaining - ((part.length : Int) + sep)) (parts ++ [part]) c'

termination_by (f, 3, pending.length)

/-- `core.py` lines 303-375: `render_attrs` — three-phase degradation with
the final whole-result budget check falling back to the bare type tag. -/
def render_attrs (E : Env) (f : Nat) (attrs : List (String × Nat))
    (typeName : String) (b : Int) (c : Ctx) : RRes Text :=
  let tag := txt ("<" ++ typeName ++ ">")
  let n := attrs.length
  if attrs.isEmpty then (.ok (pySlice tag b), c)
  else
    let shell := txt (typeName ++ "()")
    if b ≤ (shell.length : Int) then (.ok (pySlice tag b), c)
    else
      match attrsPhase1 E f attrs n 0 (b - (typeName.length : Int) - 2) [] c with
      | (.error e, c') => (.error e, c')
      | (.ok (parts, idx, remaining), c') =>
        let (parts2, idx2) := attrsPhase2 E (attrs.drop idx) n idx remaining parts
        let omitted := n - idx2
        let parts3 :=
          if omitted > 0 then parts2 ++ [txt ("..." ++ toString omitted ++ " more")]
          else parts2
        let result := txt (typeName ++ "(") ++ joinComma parts3 ++ txt ")"
        if (result.length : Int) > b then (.ok (pySlice tag b), c')
        else (.ok result, c')

termination_by (f, 5, 0)

/-- `core.py` lines 378-382: `_render_namedtuple` — zip the declared fields
with the positional elements and delegate to `render_attrs`. -/
def _render_namedtuple (E : Env) (f : Nat) (typeName : String)
    (fields : List String) (elems : List Nat) (b : Int) (c : Ctx) :
    RRes Text :=
  render_attrs E f (fields.zip elems) typeName b c

termination_by (f, 7, 0)

/-- `core.py` lines 385-400: `_render_defaultdict`. -/
def _render_defaultdict (E : Env) (f : Nat) (factoryName : String)
    (entries : List (Nat × Nat)) (b : Int) (c : Ctx) : RRes Text :=
  let pfx := txt ("defaultdict(" ++ factoryName ++ ", ")
  let shell := txt ("defaultdict(" ++ factoryName ++ ")")
  if b ≤ (shell.length : Int) then (.ok (pySlice shell b), c)
  else
    let innerBudget := b - (pfx.length : Int) - 1
    if innerBudget < MIN_BUDGET then (.ok (pySlice shell b), c)
    else
      match _render_dict E f entries innerBudget c with
      | (.error e, c') => (.error e, c')
      | (.ok inner, c') => (.ok (pfx ++ inner ++ txt ")"), c')

termination_by (f, 7, 0)

/-- `core.py` lines 403-419: `_render_counter`; `dict(obj.most_common())`
is modelled by the entries being stored in most-common order. -/
def _render_counter (E : Env) (f : Nat) (entries : List (Nat × Nat))
    (b : Int) (c : Ctx) : RRes Text :=
  if entries.isEmpty then (.ok (pySlice (txt "Counter()") b), c)
  else if b ≤ ((txt "Counter()").length : Int) then
    (.ok (pySlice (txt "Counter()") b), c)
  else
    let innerBudget := b - ((txt "Counter(").length : Int) - 1
    if innerBudget < MIN_BUDGET then (.ok (pySlice (txt "Counter()") b), c)
    else
      match _render_dict E f entries innerBudget c with
      | (.error e, c') => (.error e, c')
      | (.ok inner, c') => (.ok (txt "Counter(" ++ inner ++ txt ")"), c')

termination_by (f, 7, 0)

/-- `core.py` lines 422-438: `_render_deque`; delegates to
`_render_sequence`, which uses square brackets for non-tuples. -/
def _render_deque (E : Env) (f : Nat) (elems : List Nat) (b : Int) (c : Ctx) :
    RRes Text :=
  if elems.isEmpty then (.ok (pySlice (txt "deque()") b), c)
  else if b ≤ ((txt "deque()").length : Int) then
    (.ok (pySlice (txt "deque()") b), c)
  else
    let innerBudget := b - ((txt "deque(").length : Int) - 1
    if innerBudget < MIN_BUDGET then (.ok (pySlice (txt "deque()") b), c)
    else
      match _render_sequence E f false elems innerBudget c with
      | (.error e, c') => (.error e, c')
      | (.ok inner, c') => (.ok (txt "deque(" ++ inner ++ txt ")"), c')

termination_by (f, 7, 0)

/-- `core.py` lines 441-473: `_render_object`.  `reprStr = some r` models a
custom `__repr__` returning `r`; `none` models `repr` raising (caught) or
being absent of interest.  Attribute discovery (`dataclasses.fields` /
`vars` / `__slots__`, filtered to public names) is performed before this
call; the discovered list is stored in the cell. -/
def _render_object (E : Env) (f : Nat) (typeName : String)
    (reprStr : Option Text) (isDataclass : Bool)
    (attrs : List (String × Nat)) (b : Int) (c : Ctx) : RRes Text :=
  let tryRepr : Option Text :=
    if isDataclass then none
    else
      match reprStr with
      | some r =>
        if ¬isDefaultRepr r ∧ (r.length : Int) ≤ b then some r else none
      | none => none
  match tryRepr with
  | some r => (.ok r, c)
  | none => render_attrs E f attrs typeName b c

termination_by (f, 7, 0)
end

/-- Fuel supplied by the top-level `render`: enough for any object graph in
the heap (proven in `renderOk_of_noFormatter`). -/
def defaultFuel (h : Heap) : Nat := h.cells.length + 2

/-- `core.py` lines 24-50: `render` — set a fresh `_seen` set and the
policy, delegate to `render_child`, and reset both contextvars on the way
out (success or exception), restoring the caller's context `c0`. -/
def render (heap : Heap) (reg : Registry) (obj : Nat) (b : Int)
    (pol : Policy) (c0 : Ctx) : RRes Text :=
  match render_child ⟨heap, reg, pol⟩ (defaultFuel heap) obj b (some ∅) with
  | (res, _) => (res, c0)

/-! ## Concrete object graphs used as test vectors -/

/-- An empty registry (no `register` calls made). -/
def emptyReg : Registry := fun _ => none

/-- Cell of a Python `int` with the given `repr`. -/
def intCell (v : String) : Cell :=
  { typeName := "int", mro := ["int", "object"], hook := none,
    shape := .prim (txt v) }

/-- Cell of a Python `str`. -/
def strCell (s : String) : Cell :=
  { typeName := "str", mro := ["str", "object"], hook := none,
    shape := .strV (txt s) }

/-- Cell of a Python `list` holding the given object ids. -/
def listCell (es : List Nat) : Cell :=
  { typeName := "list", mro := ["list", "object"], hook := none,
    shape := .listV es }

/-- Cell of a Python `dict` holding the given (key id, value id) pairs. -/
def dictCell (es : List (Nat × Nat)) : Cell :=
  { typeName := "dict", mro := ["dict", "object"], hook := none,
    shape := .dictV es }

/-- The heap of `b"abcdefghij"` (a single bytes object at id 0). -/
def bytesHeap : Heap :=
  ⟨[{ typeName := "bytes", mro := ["bytes", "object"], hook := none,
      shape := .bytesV (txt "abcdefghij") }]⟩

/-- `a = [1, 2]; a.append(a)` — self-referencing list at id 0. -/
def selfListHeap : Heap := ⟨[listCell [1, 2, 0], intCell "1", intCell "2"]⟩

/-- `d = {}; d["self"] = d` — self-referencing dict at id 0. -/
def selfDictHeap : Heap := ⟨[dictCell [(1, 0)], strCell "self"]⟩

/-- `n = Node(); n.child = n` — self-referencing object at id 0. -/
def selfObjHeap : Heap :=
  ⟨[{ typeName := "Node", mro := ["Node", "object"], hook := none,
      shape := .objV none false [("child", 0)] }]⟩

/-- Heap with an `int` at id 0 and a `dict` at id 1 (for the
`render_child`-outside-`render` claim). -/
def c3Heap : Heap := ⟨[intCell "7", dictCell [(2, 0)], strCell "k"]⟩

/-- `shared = [7]; obj = [shared, shared]` — a DAG where the same list id
occurs twice as siblings. -/
def dagHeap : Heap := ⟨[listCell [1, 1], listCell [2], intCell "7"]⟩

/-- A type exposing `__budget_repr__` (its registry entry must be ignored);
the hook returns a fixed marker string. -/
def hookHeap : Heap :=
  ⟨[{ typeName := "WithProtocol", mro := ["WithProtocol", "object"],
      hook := some (fun _ _ => .ok (txt "proto")),
      shape := .objV none false [] }]⟩

/-- A registry with a formatter registered for class name `"Base"` only. -/
def baseReg : Registry :=
  fun k => if k = "Base" then some (fun _ _ => .ok (txt "base-fmt")) else none

/-- An instance of `Sub`, a subclass of `Base` with no own registration:
`Sub.__mro__ = (Sub, Base, object)`. -/
def subHeap : Heap :=
  ⟨[{ typeName := "Sub", mro := ["Sub", "Base", "object"], hook := none,
      shape := .objV none false [] }]⟩

/-- A three-entry dict: at budget 34 only the first entry is shown, the
other two are folded into a `...2 more` marker. -/
def c6DictHeap : Heap :=
  ⟨[dictCell [(1, 2), (3, 4), (5, 6)], strCell "k1", intCell "5",
    strCell "k2", intCell "6", strCell "k3", intCell "7"]⟩

/-- A three-element list of strings: at budget 30 only the first fits,
leaving a `...2 more` marker. -/
def c6ListHeap : Heap :=
  ⟨[listCell [1, 2, 3], strCell "aaaaaaaaaaaaaaaaaaaa", strCell "b",
    strCell "c"]⟩

/-- The same three strings as a set. -/
def c6SetHeap : Heap :=
  ⟨[{ typeName := "set", mro := ["set", "object"], hook := none,
      shape := .setV false [1, 2, 3] }, strCell "aaaaaaaaaaaaaaaaaaaa",
    strCell "b", strCell "c"]⟩

/-- Heap of `{}`. -/
def c8DictHeap : Heap := ⟨[dictCell []]⟩

/-- Heap of `[]`. -/
def c8ListHeap : Heap := ⟨[listCell []]⟩

/-- Heap of `()`. -/
def c8TupleHeap : Heap :=
  ⟨[{ typeName := "tuple", mro := ["tuple", "object"], hook := none,
      shape := .tupleV none [] }]⟩

/-- Heap of `set()`. -/
def c8SetHeap : Heap :=
  ⟨[{ typeName := "set", mro := ["set", "object"], hook := none,
      shape := .setV false [] }]⟩

/-- Minimal environment (empty heap, empty registry, greedy policy). -/
def plainEnv : Env := ⟨⟨[]⟩, emptyReg, .greedy⟩

/-- `Point = namedtuple("Point", ["x", "y"]); Point(1, 2)`. -/
def pointHeap : Heap :=
  ⟨[{ typeName := "Point", mro := ["Point", "tuple", "object"], hook := none,
      shape := .tupleV (some ["x", "y"]) [1, 2] }, intCell "1", intCell "2"]⟩

/-- How far the cycle guard is from saturating the heap: the number of
heap ids not yet in `seen`.  Each recursion into a non-exempt unseen value
shrinks it, which bounds the recursion depth. -/
def guardGap (E : Env) (seen : Finset Nat) : Nat :=
  E.heap.cells.length - (seen.filter (· < E.heap.cells.length)).card

/-- `true` when a rendering step produced text (no exception). -/
def resOk {α : Type} : RRes α → Bool
  | (.ok _, _) => true
  | (.error _, _) => false

/-! ## The `_seen` contextvar is restored by every call

`render_child` adds an identity on entry and discards it in a `finally`
block, so viewed from outside, every call — succeeding or raising — leaves
the `_seen` state exactly as it found it. -/

theorem ctx_dictLoop (E : Env) (f : Nat)
    (hchild : ∀ obj b c, (render_child E f obj b c).2 = c) :
    ∀ pending n shown remaining parts c,
      (dictLoop E f pending n shown remaining parts c).2 = c := by
  intro pending
  induction pending with
  | nil => intro n shown remaining parts c; rw [dictLoop.eq_def]
  | cons hd tl ih =>
    intro n shown remaining parts c
    rw [dictLoop.eq_def]
    obtain ⟨key, value⟩ := hd
    simp only
    split
    · rename_i e c' hK
      have h := congrArg Prod.snd hK
      rw [hchild] at h
      exact h.symm
    · rename_i keyR c' hK
      have h := congrArg Prod.snd hK
      rw [hchild] at h
      subst h
      repeat' split
      all_goals first
      | rfl
      | (rename_i e c'' hV
         have h2 := congrArg Prod.snd hV
         rw [hchild] at h2
         exact h2.symm)
      | (rename_i valR c'' hV
         have h2 := congrArg Prod.snd hV
         rw [hchild] at h2
         subst h2
         exact ih _ _ _ _ _)

theorem ctx_seqLoop (E : Env) (f : Nat)
    (hchild : ∀ obj b c, (render_child E f obj b c).2 = c) :
    ∀ pending n headIdx remaining headParts c,
      (seqLoop E f pending n headIdx remaining headParts c).2 = c := by
  intro pending
  induction pending with
  | nil => intro n headIdx remaining headParts c; rw [seqLoop.eq_def]
  | cons hd tl ih =>
    intro n headIdx remaining headParts c
    rw [seqLoop.eq_def]
    simp only
    repeat' split
    all_goals first
    | rfl
    | (rename_i e c' hE
       have h2 := congrArg Prod.snd hE
       rw [hchild] at h2
       exact h2.symm)
    | (rename_i part c' hE
       have h2 := congrArg Prod.snd hE
       rw [hchild] at h2
       subst h2
       exact ih _ _ _ _ _)

theorem ctx_setLoop (E : Env) (f : Nat)
    (hchild : ∀ obj b c, (render_child E f obj b c).2 = c) :
    ∀ pending n shown remaining parts c,
      (setLoop E f pending n shown remaining parts c).2 = c := by
  intro pending
  induction pending with
  | nil => intro n shown remaining parts c; rw [setLoop.eq_def]
  | cons hd tl ih =>
    intro n shown remaining parts c
    rw [setLoop.eq_def]
    simp only
    repeat' split
    all_goals first
    | rfl
    | (rename_i e c' hE
       have h2 := congrArg Prod.snd hE
       rw [hchild] at h2
       exact h2.symm)
    | (rename_i part c' hE
       have h2 := congrArg Prod.snd hE
       rw [hchild] at h2
       subst h2
       exact ih _ _ _ _ _)

theorem ctx_attrsPhase1 (E : Env) (f : Nat)
    (hchild : ∀ obj b c, (render_child E f obj b c).2 = c) :
    ∀ pending n idx remaining parts c,
      (attrsPhase1 E f pending n idx remaining parts c).2 = c := by
  intro pending
  induction pending with
  | nil => intro n idx remaining parts c; rw [attrsPhase1.eq_def]
  | cons hd tl ih =>
    intro n idx remaining parts c
    rw [attrsPhase1.eq_def]
    obtain ⟨name, v⟩ := hd
    simp only
    repeat' split
    all_goals first
    | rfl
    | (rename_i e c' hE
       have h2 := congrArg Prod.snd hE
       rw [hchild] at h2
       exact h2.symm)
    | (rename_i valR c' hE
       have h2 := congrArg Prod.snd hE
       rw [hchild] at h2
       subst h2
       exact ih _ _ _ _ _)

theorem ctx_dict (E : Env) (f : Nat)
    (hchild : ∀ obj b c, (render_child E f obj b c).2 = c) :
    ∀ entries b c, (_render_dict E f entries b c).2 = c := by
  intro entries b c
  rw [_render_dict.eq_def]
  simp only
  cases hL : dictLoop E f entries entries.length 0 (b - 2) [] c with
  | mk res c' =>
    have h2 := congrArg Prod.snd hL
    rw [ctx_dictLoop E f hchild] at h2
    subst h2
    cases res with
    | error e => repeat' (first | rfl | split)
    | ok pair =>
      obtain ⟨parts, shown⟩ := pair
      simp only
      repeat' (first | rfl | split)

theorem ctx_sequence (E : Env) (f : Nat)
    (hchild : ∀ obj b c, (render_child E f obj b c).2 = c) :
    ∀ isTuple elems b c, (_render_sequence E f isTuple elems b c).2 = c := by
  intro isTuple elems b c
  rw [_render_sequence.eq_def]
  simp only
  cases hL : seqLoop E f elems elems.length 0 (b - 2) [] c with
  | mk res c' =>
    have h2 := congrArg Prod.snd hL
    rw [ctx_seqLoop E f hchild] at h2
    subst h2
    cases res with
    | error e =>
      repeat' (first | rfl | split)
    | ok triple =>
      obtain ⟨hp, hi, rem⟩ := triple
      simp only
      repeat' (first | rfl | split)
      all_goals first
      | (rename_i e c2 hT
         have h3 := congrArg Prod.snd hT
         rw [hchild] at h3
         exact h3.symm)
      | (rename_i tailR c2 hT hcond3
         have h3 := congrArg Prod.snd hT
         rw [hchild] at h3
         exact h3.symm)

theorem ctx_set (E : Env) (f : Nat)
    (hchild : ∀ obj b c, (render_child E f obj b c).2 = c) :
    ∀ frozen elems b c, (_render_set E f frozen elems b c).2 = c := by
  intro frozen elems b c
  rw [_render_set.eq_def]
  simp only
  repeat' (first | rfl | split)
  all_goals first
  | (rename_i hL
     have h2 := congrArg Prod.snd hL
     rw [ctx_setLoop E f hchild] at h2
     first
     | exact h2.symm
     | (subst h2; rfl))
  | (rename_i hL hcond
     have h2 := congrArg Prod.snd hL
     rw [ctx_setLoop E f hchild] at h2
     first
     | exact h2.symm
     | (subst h2; rfl))

theorem ctx_attrs (E : Env) (f : Nat)
    (hchild : ∀ obj b c, (render_child E f obj b c).2 = c) :
    ∀ attrs tn b c, (render_attrs E f attrs tn b c).2 = c := by
  intro attrs tn b c
  rw [render_attrs.eq_def]
  simp only
  cases hL : attrsPhase1 E f attrs attrs.length 0 (b - (tn.length : Int) - 2) [] c with
  | mk res c' =>
    have h2 := congrArg Prod.snd hL
    rw [ctx_attrsPhase1 E f hchild] at h2
    subst h2
    cases res with
    | error e => repeat' (first | rfl | split)
    | ok triple =>
      obtain ⟨parts, idx, remaining⟩ := triple
      simp only
      repeat' (first | rfl | split)

theorem ctx_namedtuple (E : Env) (f : Nat)
    (hchild : ∀ obj b c, (render_child E f obj b c).2 = c) :
    ∀ tn fields elems b c, (_render_namedtuple E f tn fields elems b c).2 = c := by
  intro tn fields elems b c
  rw [_render_namedtuple.eq_def]
  exact ctx_attrs E f hchild _ _ _ _

theorem ctx_defaultdict (E : Env) (f : Nat)
    (hchild : ∀ obj b c, (render_child E f obj b c).2 = c) :
    ∀ fn entries b c, (_render_defaultdict E f fn entries b c).2 = c := by
  intro fn entries b c
  rw [_render_defaultdict.eq_def]
  simp only
  repeat' split
  all_goals first
  | rfl
  | (rename_i hL
     have h2 := congrArg Prod.snd hL
     rw [ctx_dict E f hchild] at h2
     first
     | exact h2.symm
     | (subst h2; rfl))

theorem ctx_counter (E : Env) (f : Nat)
    (hchild : ∀ obj b c, (render_child E f obj b c).2 = c) :
    ∀ entries b c, (_render_counter E f entries b c).2 = c := by
  intro entries b c
  rw [_render_counter.eq_def]
  simp only
  repeat' split
  all_goals first
  | rfl
  | (rename_i hL
     have h2 := congrArg Prod.snd hL
     rw [ctx_dict E f hchild] at h2
     first
     | exact h2.symm
     | (subst h2; rfl))

theorem ctx_deque (E : Env) (f : Nat)
    (hchild : ∀ obj b c, (render_child E f obj b c).2 = c) :
    ∀ elems b c, (_render_deque E f elems b c).2 = c := by
  intro elems b c
  rw [_render_deque.eq_def]
  simp only
  repeat' split
  all_goals first
  | rfl
  | (rename_i hL
     have h2 := congrArg Prod.snd hL
     rw [ctx_sequence E f hchild] at h2
     first
     | exact h2.symm
     | (subst h2; rfl))

theorem ctx_object (E : Env) (f : Nat)
    (hchild : ∀ obj b c, (render_child E f obj b c).2 = c) :
    ∀ tn rs dc attrs b c, (_render_object E f tn rs dc attrs b c).2 = c := by
  intro tn rs dc attrs b c
  rw [_render_object.eq_def]
  simp only
  repeat' split
  all_goals first
  | rfl
  | exact ctx_attrs E f hchild _ _ _ _

theorem ctx_generic (E : Env) (f : Nat)
    (hchild : ∀ obj b c, (render_child E f obj b c).2 = c) :
    ∀ obj b c, (_render_generic E f obj b c).2 = c := by
  intro obj b c
  rw [_render_generic.eq_def]
  simp only
  split <;>
  first
  | rfl
  | exact ctx_defaultdict E f hchild _ _ _ _
  | exact ctx_counter E f hchild _ _ _
  | exact ctx_dict E f hchild _ _ _
  | exact ctx_namedtuple E f hchild _ _ _ _ _
  | exact ctx_sequence E f hchild _ _ _ _
  | exact ctx_set E f hchild _ _ _ _
  | exact ctx_deque E f hchild _ _ _
  | exact ctx_object E f hchild _ _ _ _ _ _

theorem ctx_inner (E : Env) (f : Nat)
    (hchild : ∀ obj b c, (render_child E f obj b c).2 = c) :
    ∀ obj b c, (_render_inner E f obj b c).2 = c := by
  intro obj b c
  rw [_render_inner.eq_def]
  simp only
  repeat' split
  all_goals first
  | rfl
  | exact ctx_generic E f hchild _ _ _

/-- Core of the cycle-guard invariant: `render_child` leaves the `_seen`
contextvar exactly as it found it, on the success and on the exception
path alike (`try`/`finally` in `core.py` lines 77-80). -/
theorem ctx_child : ∀ (f : Nat) (E : Env) (obj : Nat) (b : Int) (c : Ctx),
    (render_child E f obj b c).2 = c := by
  intro f
  induction f with
  | zero =>
    intro E obj b c
    rw [render_child.eq_def]
    repeat' (first | rfl | split)
    all_goals (rename_i heq2; exact absurd heq2 (by omega))
  | succ f ih =>
    intro E obj b c
    rw [render_child.eq_def]
    split
    · rfl
    · split
      · exact ctx_inner E f (ih E) obj b c
      · split
        · rfl
        · split
          · rfl
          · rename_i seen hmem
            split
            · rfl
            · rename_i fs f2 heq2
              injection heq2 with h2
              subst h2
              have h1 := ctx_inner E f (ih E) obj b (some (insert obj seen))
              cases hI : _render_inner E f obj b (some (insert obj seen)) with
              | mk res c' =>
                rw [hI] at h1
                simp only at h1
                subst h1
                simp [Finset.erase_insert hmem]

/-! ## With no formatter installed, rendering always succeeds

The recursion is bounded: each descent into a non-exempt unseen value
shrinks `guardGap`, so `defaultFuel` is enough fuel, and with no
`__budget_repr__` hooks and an empty registry no exception path exists. -/

theorem get_renderer_eq_none (reg : Registry) (hR : ∀ k, reg k = none) :
    ∀ mro, get_renderer reg mro = none := by
  intro mro
  induction mro with
  | nil => rfl
  | cons k rest ih => rw [get_renderer, hR k]; exact ih

theorem lookup_hook_none (E : Env)
    (hH : ∀ cl ∈ E.heap.cells, cl.hook = none) (i : Nat) :
    (E.heap.lookup i).hook = none := by
  unfold Heap.lookup
  rcases h : E.heap.cells[i]? with _ | cl
  · rw [List.getD_eq_getElem?_getD, h]; rfl
  · rw [List.getD_eq_getElem?_getD, h]
    exact hH cl (List.getElem?_mem h)

theorem nonExempt_lt (E : Env) (obj : Nat)
    (h : ¬(E.heap.lookup obj).shape.isExempt = true) :
    obj < E.heap.cells.length := by
  by_contra hn
  push_neg at hn
  have hd : E.heap.lookup obj = defaultCell := by
    unfold Heap.lookup
    exact List.getD_eq_default _ _ hn
  rw [hd] at h
  exact h rfl

theorem guardGap_insert (E : Env) {obj : Nat} {seen : Finset Nat}
    (hlt : obj < E.heap.cells.length) (hmem : obj ∉ seen) :
    guardGap E (insert obj seen) + 1 = guardGap E seen := by
  unfold guardGap
  rw [Finset.filter_insert, if_pos hlt,
    Finset.card_insert_of_not_mem (fun hx => hmem (Finset.mem_filter.mp hx).1)]
  have hsub : seen.filter (· < E.heap.cells.length) ⊆
      (Finset.range E.heap.cells.length).erase obj := by
    intro x hx
    obtain ⟨hx1, hx2⟩ := Finset.mem_filter.mp hx
    exact Finset.mem_erase.mpr ⟨fun he => hmem (he ▸ hx1),
      Finset.mem_range.mpr hx2⟩
  have hcard := Finset.card_le_card hsub
  rw [Finset.card_erase_of_mem (Finset.mem_range.mpr hlt),
    Finset.card_range] at hcard
  omega

theorem ok_dictLoop (E : Env) (f : Nat)
    (hchild : ∀ obj b seen, guardGap E seen < f →
      resOk (render_child E f obj b (some seen)) = true) :
    ∀ pending n shown remaining parts seen, guardGap E seen < f →
      resOk (dictLoop E f pending n shown remaining parts (some seen)) =
        true := by
  intro pending
  induction pending with
  | nil => intro n shown remaining parts seen hgap; rw [dictLoop.eq_def]; rfl
  | cons hd tl ih =>
    intro n shown remaining parts seen hgap
    obtain ⟨key, value⟩ := hd
    rw [dictLoop.eq_def]
    simp only
    split
    · rename_i e c' hK
      have h := congrArg resOk hK
      rw [hchild _ _ _ hgap] at h
      exact Bool.noConfusion h
    · rename_i keyR c' hK
      have h2 := congrArg Prod.snd hK
      rw [ctx_child] at h2
      subst h2
      repeat' (first | rfl | split)
      all_goals first
      | (rename_i e c'' hV
         have h := congrArg resOk hV
         rw [hchild _ _ _ hgap] at h
         exact Bool.noConfusion h)
      | (rename_i valR c'' hV
         have h2 := congrArg Prod.snd hV
         rw [ctx_child] at h2
         subst h2
         exact ih _ _ _ _ _ hgap)

theorem ok_seqLoop (E : Env) (f : Nat)
    (hchild : ∀ obj b seen, guardGap E seen < f →
      resOk (render_child E f obj b (some seen)) = true) :
    ∀ pending n headIdx remaining headParts seen, guardGap E seen < f →
      resOk (seqLoop E f pending n headIdx remaining headParts (some seen)) =
        true := by
  intro pending
  induction pending with
  | nil => intro n headIdx remaining headParts seen hgap; rw [seqLoop.eq_def]; rfl
  | cons hd tl ih =>
    intro n headIdx remaining headParts seen hgap
    rw [seqLoop.eq_def]
    simp only
    repeat' (first | rfl | split)
    all_goals first
    | (rename_i e c' hE
       have h := congrArg resOk hE
       rw [hchild _ _ _ hgap] at h
       exact Bool.noConfusion h)
    | (rename_i part c' hE
       have h2 := congrArg Prod.snd hE
       rw [ctx_child] at h2
       subst h2
       exact ih _ _ _ _ _ hgap)

theorem ok_setLoop (E : Env) (f : Nat)
    (hchild : ∀ obj b seen, guardGap E seen < f →
      resOk (render_child E f obj b (some seen)) = true) :
    ∀ pending n shown remaining parts seen, guardGap E seen < f →
      resOk (setLoop E f pending n shown remaining parts (some seen)) =
        true := by
  intro pending
  induction pending with
  | nil => intro n shown remaining parts seen hgap; rw [setLoop.eq_def]; rfl
  | cons hd tl ih =>
    intro n shown remaining parts seen hgap
    rw [setLoop.eq_def]
    simp only
    repeat' (first | rfl | split)
    all_goals first
    | (rename_i e c' hE
       have h := congrArg resOk hE
       rw [hchild _ _ _ hgap] at h
       exact Bool.noConfusion h)
    | (rename_i part c' hE
       have h2 := congrArg Prod.snd hE
       rw [ctx_child] at h2
       subst h2
       exact ih _ _ _ _ _ hgap)

theorem ok_attrsPhase1 (E : Env) (f : Nat)
    (hchild : ∀ obj b seen, guardGap E seen < f →
      resOk (render_child E f obj b (some seen)) = true) :
    ∀ pending n idx remaining parts seen, guardGap E seen < f →
      resOk (attrsPhase1 E f pending n idx remaining parts (some seen)) =
        true := by
  intro pending
  induction pending with
  | nil => intro n idx remaining parts seen hgap; rw [attrsPhase1.eq_def]; rfl
  | cons hd tl ih =>
    intro n idx remaining parts seen hgap
    rw [attrsPhase1.eq_def]
    obtain ⟨name, v⟩ := hd
    simp only
    repeat' (first | rfl | split)
    all_goals first
    | (rename_i e c' hE
       have h := congrArg resOk hE
       rw [hchild _ _ _ hgap] at h
       exact Bool.noConfusion h)
    | (rename_i valR c' hE
       have h2 := congrArg Prod.snd hE
       rw [ctx_child] at h2
       subst h2
       exact ih _ _ _ _ _ hgap)

theorem ok_dict (E : Env) (f : Nat)
    (hchild : ∀ obj b seen, guardGap E seen < f →
      resOk (render_child E f obj b (some seen)) = true) :
    ∀ entries b seen, guardGap E seen < f →
      resOk (_render_dict E f entries b (some seen)) = true := by
  intro entries b seen hgap
  rw [_render_dict.eq_def]
  simp only
  cases hL : dictLoop E f entries entries.length 0 (b - 2) [] (some seen) with
  | mk res c' =>
    have h2 := congrArg Prod.snd hL
    rw [ctx_dictLoop E f (fun o bb cc => ctx_child f E o bb cc)] at h2
    subst h2
    have hok := ok_dictLoop E f hchild entries entries.length 0 (b - 2) [] seen hgap
    rw [hL] at hok
    cases res with
    | error e => exact Bool.noConfusion hok
    | ok pair =>
      obtain ⟨parts, shown⟩ := pair
      simp only
      repeat' (first | rfl | split)

theorem ok_sequence (E : Env) (f : Nat)
    (hchild : ∀ obj b seen, guardGap E seen < f →
      resOk (render_child E f obj b (some seen)) = true) :
    ∀ isTuple elems b seen, guardGap E seen < f →
      resOk (_render_sequence E f isTuple elems b (some seen)) = true := by
  intro isTuple elems b seen hgap
  rw [_render_sequence.eq_def]
  simp only
  cases hL : seqLoop E f elems elems.length 0 (b - 2) [] (some seen) with
  | mk res c' =>
    have h2 := congrArg Prod.snd hL
    rw [ctx_seqLoop E f (fun o bb cc => ctx_child f E o bb cc)] at h2
    subst h2
    have hok := ok_seqLoop E f hchild elems elems.length 0 (b - 2) [] seen hgap
    rw [hL] at hok
    cases res with
    | error e => exact Bool.noConfusion hok
    | ok triple =>
      obtain ⟨hp, hi, rem⟩ := triple
      simp only
      repeat' (first | rfl | split)
      all_goals
        (rename_i e c2 hT
         have h := congrArg resOk hT
         rw [hchild _ _ _ hgap] at h
         exact Bool.noConfusion h)

theorem ok_set (E : Env) (f : Nat)
    (hchild : ∀ obj b seen, guardGap E seen < f →
      resOk (render_child E f obj b (some seen)) = true) :
    ∀ frozen elems b seen, guardGap E seen < f →
      resOk (_render_set E f frozen elems b (some seen)) = true := by
  intro frozen elems b seen hgap
  rw [_render_set.eq_def]
  simp only
  repeat' (first | rfl | split)
  all_goals first
  | (rename_i hE
     have h := congrArg resOk hE
     rw [ok_setLoop E f hchild _ _ _ _ _ _ hgap] at h
     exact Bool.noConfusion h)
  | (rename_i hE hcond
     have h := congrArg resOk hE
     rw [ok_setLoop E f hchild _ _ _ _ _ _ hgap] at h
     exact Bool.noConfusion h)
  | rfl

theorem ok_attrs (E : Env) (f : Nat)
    (hchild : ∀ obj b seen, guardGap E seen < f →
      resOk (render_child E f obj b (some seen)) = true) :
    ∀ attrs tn b seen, guardGap E seen < f →
      resOk (render_attrs E f attrs tn b (some seen)) = true := by
  intro attrs tn b seen hgap
  rw [render_attrs.eq_def]
  simp only
  cases hL : attrsPhase1 E f attrs attrs.length 0 (b - (tn.length : Int) - 2) []
      (some seen) with
  | mk res c' =>
    have h2 := congrArg Prod.snd hL
    rw [ctx_attrsPhase1 E f (fun o bb cc => ctx_child f E o bb cc)] at h2
    subst h2
    have hok := ok_attrsPhase1 E f hchild attrs attrs.length 0
      (b - (tn.length : Int) - 2) [] seen hgap
    rw [hL] at hok
    cases res with
    | error e => exact Bool.noConfusion hok
    | ok triple =>
      obtain ⟨parts, idx, remaining⟩ := triple
      simp only
      repeat' (first | rfl | split)

theorem ok_namedtuple (E : Env) (f : Nat)
    (hchild : ∀ obj b seen, guardGap E seen < f →
      resOk (render_child E f obj b (some seen)) = true) :
    ∀ tn fields elems b seen, guardGap E seen < f →
      resOk (_render_namedtuple E f tn fields elems b (some seen)) = true := by
  intro tn fields elems b seen hgap
  rw [_render_namedtuple.eq_def]
  exact ok_attrs E f hchild _ _ _ _ hgap

theorem ok_defaultdict (E : Env) (f : Nat)
    (hchild : ∀ obj b seen, guardGap E seen < f →
      resOk (render_child E f obj b (some seen)) = true) :
    ∀ fn entries b seen, guardGap E seen < f →
      resOk (_render_defaultdict E f fn entries b (some seen)) = true := by
  intro fn entries b seen hgap
  rw [_render_defaultdict.eq_def]
  simp only
  repeat' (first | rfl | split)
  all_goals
    (rename_i e c' hE
     have h := congrArg resOk hE
     rw [ok_dict E f hchild _ _ _ hgap] at h
     exact Bool.noConfusion h)

theorem ok_counter (E : Env) (f : Nat)
    (hchild : ∀ obj b seen, guardGap E seen < f →
      resOk (render_child E f obj b (some seen)) = true) :
    ∀ entries b seen, guardGap E seen < f →
      resOk (_render_counter E f entries b (some seen)) = true := by
  intro entries b seen hgap
  rw [_render_counter.eq_def]
  simp only
  repeat' (first | rfl | split)
  all_goals
    (rename_i e c' hE
     have h := congrArg resOk hE
     rw [ok_dict E f hchild _ _ _ hgap] at h
     exact Bool.noConfusion h)

theorem ok_deque (E : Env) (f : Nat)
    (hchild : ∀ obj b seen, guardGap E seen < f →
      resOk (render_child E f obj b (some seen)) = true) :
    ∀ elems b seen, guardGap E seen < f →
      resOk (_render_deque E f elems b (some seen)) = true := by
  intro elems b seen hgap
  rw [_render_deque.eq_def]
  simp only
  repeat' (first | rfl | split)
  all_goals
    (rename_i e c' hE
     have h := congrArg resOk hE
     rw [ok_sequence E f hchild _ _ _ _ hgap] at h
     exact Bool.noConfusion h)

theorem ok_object (E : Env) (f : Nat)
    (hchild : ∀ obj b seen, guardGap E seen < f →
      resOk (render_child E f obj b (some seen)) = true) :
    ∀ tn rs dc attrs b seen, guardGap E seen < f →
      resOk (_render_object E f tn rs dc attrs b (some seen)) = true := by
  intro tn rs dc attrs b seen hgap
  rw [_render_object.eq_def]
  simp only
  repeat' (first | rfl | split)
  all_goals exact ok_attrs E f hchild _ _ _ _ hgap

theorem ok_generic (E : Env) (f : Nat)
    (hchild : ∀ obj b seen, guardGap E seen < f →
      resOk (render_child E f obj b (some seen)) = true) :
    ∀ obj b seen,
      ((E.heap.lookup obj).shape.isExempt = true ∨ guardGap E seen < f) →
      resOk (_render_generic E f obj b (some seen)) = true := by
  intro obj b seen hyp
  rw [_render_generic.eq_def]
  simp only
  split <;>
  first
  | rfl
  | (rename_i heq
     rcases hyp with hex | hgap
     · rw [heq] at hex
       exact Bool.noConfusion hex
     · first
       | exact ok_defaultdict E f hchild _ _ _ _ hgap
       | exact ok_counter E f hchild _ _ _ hgap
       | exact ok_dict E f hchild _ _ _ hgap
       | exact ok_namedtuple E f hchild _ _ _ _ _ hgap
       | exact ok_sequence E f hchild _ _ _ _ hgap
       | exact ok_set E f hchild _ _ _ _ hgap
       | exact ok_deque E f hchild _ _ _ hgap
       | exact ok_object E f hchild _ _ _ _ _ _ hgap)

theorem ok_inner (E : Env)
    (hH : ∀ cl ∈ E.heap.cells, cl.hook = none) (hR : ∀ k, E.reg k = none)
    (f : Nat)
    (hchild : ∀ obj b seen, guardGap E seen < f →
      resOk (render_child E f obj b (some seen)) = true) :
    ∀ obj b seen,
      ((E.heap.lookup obj).shape.isExempt = true ∨ guardGap E seen < f) →
      resOk (_render_inner E f obj b (some seen)) = true := by
  intro obj b seen hyp
  rw [_render_inner.eq_def]
  simp only [lookup_hook_none E hH obj,
    get_renderer_eq_none E.reg hR (E.heap.lookup obj).mro]
  exact ok_generic E f hchild obj b seen hyp

theorem ok_child (E : Env)
    (hH : ∀ cl ∈ E.heap.cells, cl.hook = none) (hR : ∀ k, E.reg k = none) :
    ∀ (f : Nat) (obj : Nat) (b : Int) (seen : Finset Nat),
      guardGap E seen < f →
      resOk (render_child E f obj b (some seen)) = true := by
  intro f
  induction f with
  | zero => intro obj b seen hgap; exact absurd hgap (Nat.not_lt_zero _)
  | succ f ih =>
    intro obj b seen hgap
    rw [render_child.eq_def]
    split
    · rfl
    · rename_i hb
      split
      · rename_i hex
        exact ok_inner E hH hR f ih obj b seen (Or.inl hex)
      · rename_i hex
        simp only
        by_cases hmem : obj ∈ seen
        · rw [if_pos hmem]
          rfl
        · rw [if_neg hmem]
          have hlt := nonExempt_lt E obj hex
          have hgap2 : guardGap E (insert obj seen) < f := by
            have hg := guardGap_insert E hlt hmem
            omega
          have hin := ok_inner E hH hR f ih obj b (insert obj seen)
            (Or.inr hgap2)
          cases hI : _render_inner E f obj b (some (insert obj seen)) with
          | mk res c' =>
            rw [hI] at hin
            cases res with
            | error e => exact Bool.noConfusion hin
            | ok s => rfl

/-! ## Small helper lemmas -/

theorem pySlice_eq_self {s : Text} {b : Int} (h : (s.length : Int) ≤ b) :
    pySlice s b = s := by
  unfold pySlice
  rw [if_pos (le_trans (Int.ofNat_nonneg _) h)]
  apply List.take_of_length_le
  omega

/-- `render` with a budget of at least `MIN_BUDGET` on a non-exempt value
with no hook and no registered formatter goes straight to the generic
fallback, with the cycle guard holding exactly the root's id. -/
theorem render_via_generic (heap : Heap) (reg : Registry) (obj : Nat)
    (b : Int) (pol : Policy) (c0 : Ctx) (hb : MIN_BUDGET ≤ b)
    (hex : (heap.lookup obj).shape.isExempt = false)
    (hh : (heap.lookup obj).hook = none)
    (hr : get_renderer reg (heap.lookup obj).mro = none) :
    render heap reg obj b pol c0 =
      ((_render_generic ⟨heap, reg, pol⟩ (heap.cells.length + 1) obj b
        (some (insert obj ∅))).1, c0) := by
  rw [render, render_child.eq_def]
  rw [if_neg (not_lt.mpr hb), if_neg (by simp [hex])]
  simp only [Finset.not_mem_empty, if_false, defaultFuel]
  rw [_render_inner.eq_def]
  simp only [hh, hr]

/-- The dict loop's bookkeeping: emitted parts and the `shown` counter move
in lockstep, and `shown` never exceeds the entries consumed. -/
theorem dictLoop_count (E : Env) (f : Nat) :
    ∀ (pending : List (Nat × Nat)) (n shown : Nat) (remaining : Int)
      (parts : List Text) (c : Ctx) (parts' : List Text) (shown' : Nat)
      (c' : Ctx),
      dictLoop E f pending n shown remaining parts c =
        (.ok (parts', shown'), c') →
      parts'.length + shown = shown' + parts.length ∧ shown ≤ shown' ∧
        shown' ≤ shown + pending.length := by
  intro pending
  induction pending with
  | nil =>
    intro n shown remaining parts c parts' shown' c' h
    rw [dictLoop.eq_def] at h
    injection h with h1 h2
    injection h1 with h3
    injection h3 with h4 h5
    subst h4; subst h5
    omega
  | cons hd tl ih =>
    intro n shown remaining parts c parts' shown' c' h
    rw [dictLoop.eq_def] at h
    obtain ⟨key, value⟩ := hd
    simp only at h
    repeat' split at h
    all_goals first
    | (injection h with h1 h2
       exact Except.noConfusion h1)
    | (injection h with h1 h2
       injection h1 with h3
       injection h3 with h4 h5
       subst h4; subst h5
       omega)
    | (have hih := ih _ _ _ _ _ _ _ _ h
       simp only [List.length_append, List.length_cons,
         List.length_nil] at hih ⊢
       omega)

/-- Head-loop bookkeeping for sequences. -/
theorem seqLoop_count (E : Env) (f : Nat) :
    ∀ (pending : List Nat) (n headIdx : Nat) (remaining : Int)
      (headParts : List Text) (c : Ctx) (hp : List Text) (hi : Nat)
      (rem : Int) (c' : Ctx),
      seqLoop E f pending n headIdx remaining headParts c =
        (.ok (hp, hi, rem), c') →
      hp.length + headIdx = hi + headParts.length ∧ headIdx ≤ hi ∧
        hi ≤ headIdx + pending.length := by
  intro pending
  induction pending with
  | nil =>
    intro n headIdx remaining headParts c hp hi rem c' h
    rw [seqLoop.eq_def] at h
    injection h with h1 h2
    injection h1 with h3
    injection h3 with h4 h5
    injection h5 with h6 h7
    subst h4; subst h6
    omega
  | cons hd tl ih =>
    intro n headIdx remaining headParts c hp hi rem c' h
    rw [seqLoop.eq_def] at h
    simp only at h
    repeat' split at h
    all_goals first
    | (injection h with h1 h2
       exact Except.noConfusion h1)
    | (injection h with h1 h2
       injection h1 with h3
       injection h3 with h4 h5
       injection h5 with h6 h7
       subst h4; subst h6
       omega)
    | (have hih := ih _ _ _ _ _ _ _ _ _ h
       simp only [List.length_append, List.length_cons,
         List.length_nil] at hih ⊢
       omega)

/-- Set-loop bookkeeping. -/
theorem setLoop_count (E : Env) (f : Nat) :
    ∀ (pending : List Nat) (n shown : Nat) (remaining : Int)
      (parts : List Text) (c : Ctx) (parts' : List Text) (shown' : Nat)
      (c' : Ctx),
      setLoop E f pending n shown remaining parts c =
        (.ok (parts', shown'), c') →
      parts'.length + shown = shown' + parts.length ∧ shown ≤ shown' ∧
        shown' ≤ shown + pending.length := by
  intro pending
  induction pending with
  | nil =>
    intro n shown remaining parts c parts' shown' c' h
    rw [setLoop.eq_def] at h
    injection h with h1 h2
    injection h1 with h3
    injection h3 with h4 h5
    subst h4; subst h5
    omega
  | cons hd tl ih =>
    intro n shown remaining parts c parts' shown' c' h
    rw [setLoop.eq_def] at h
    simp only at h
    repeat' split at h
    all_goals first
    | (injection h with h1 h2
       exact Except.noConfusion h1)
    | (injection h with h1 h2
       injection h1 with h3
       injection h3 with h4 h5
       subst h4; subst h5
       omega)
    | (have hih := ih _ _ _ _ _ _ _ _ h
       simp only [List.length_append, List.length_cons,
         List.length_nil] at hih ⊢
       omega)

/-! ## The claims -/

/-- **C1** (budget invariant): the claim states that for every value,
budget ≥ 0 and policy, `len(render(value, budget, policy)) ≤ budget`.  The
code violates it: `_render_bytes` reserves 5 overhead characters but its
truncated form `b'` + prefix + `...'` needs 6, so
`render(b"abcdefghij", 8)` returns the 9-character string `b'abc...'`.
This theorem evaluates the code at that failing input. -/
theorem C1_budget_violation_on_bytes :
    render bytesHeap emptyReg 0 8 .greedy none =
      (.ok (txt "b'abc...'"), none) ∧
    (txt "b'abc...'").length = 9 := by
  constructor
  · rw [render]
    norm_num [render_child.eq_def, _render_inner.eq_def,
      _render_generic.eq_def, MIN_BUDGET, defaultFuel, bytesHeap,
      Heap.lookup, emptyReg, get_renderer, Shape.isExempt, render_bytes,
      pyReprBytes, txt, pySlice]
    decide
  · decide

/-- **C3** counterexample: the claim states that `render_child(value,
budget)` outside an active `render` fails for *every* value and budget; but
for a cycle-exempt value (here the `int` `7`) the code never consults the
`_seen` contextvar and returns a string. -/
theorem C3_counterexample_exempt_value :
    render_child ⟨c3Heap, emptyReg, .greedy⟩ 5 0 10 none =
      (.ok (txt "7"), none) := by
  norm_num [render_child.eq_def, _render_inner.eq_def,
    _render_generic.eq_def, MIN_BUDGET, c3Heap, intCell, Heap.lookup,
    emptyReg, get_renderer, Shape.isExempt, render_primitive, txt]

/-- **C3** (amended): calling `render_child` with no active top-level
`render` (the `_seen` contextvar unset) fails with the usage-error
`RuntimeError` — provided the budget is at least `MIN_BUDGET` and the value
is not one of the cycle-exempt immutable scalar kinds; exempt values and
sub-`MIN_BUDGET` budgets never consult the session state. -/
theorem C3_render_child_outside_render_errors (E : Env) (f : Nat)
    (obj : Nat) (b : Int) (hb : MIN_BUDGET ≤ b)
    (hex : (E.heap.lookup obj).shape.isExempt = false) :
    render_child E f obj b none = (.error .notInRender, none) := by
  rw [render_child.eq_def]
  rw [if_neg (not_lt.mpr hb), if_neg (by simp [hex])]

theorem C3_witness :
    render_child ⟨c3Heap, emptyReg, .greedy⟩ 3 1 10 none =
      (.error .notInRender, none) :=
  C3_render_child_outside_render_errors ⟨c3Heap, emptyReg, .greedy⟩ 3 1 10
    (by norm_num [MIN_BUDGET]) (by rfl)

/-- **C7**: for every budget below `MIN_BUDGET` (5), `render_child` returns
the clipped placeholder `"..."[:budget]` — the result is the same for every
value, every fuel and every `_seen` state (which is also returned
untouched), so no hook lookup, registry lookup, cycle-guard consultation or
recursion can have taken place. -/
theorem C7_min_budget_placeholder (E : Env) (f : Nat) (obj : Nat) (b : Int)
    (c : Ctx) (hb : b < MIN_BUDGET) :
    render_child E f obj b c = (.ok (pySlice (txt "...") b), c) := by
  rw [render_child.eq_def, if_pos hb]

theorem C7_witness :
    render_child plainEnv 0 99 3 none = (.ok (txt "..."), none) :=
  (C7_min_budget_placeholder plainEnv 0 99 3 none
    (by norm_num [MIN_BUDGET])).trans (by rfl)

/-- **C9**: `render_attrs` on an empty attribute mapping returns the bare
tag `<TypeName>` clipped to the budget — never the empty-parens shell
`TypeName()` — for every type name, every budget, every policy and every
session state. -/
theorem C9_empty_attrs_bare_tag (E : Env) (f : Nat) (tn : String) (b : Int)
    (c : Ctx) :
    render_attrs E f [] tn b c =
      (.ok (pySlice (txt ("<" ++ tn ++ ">")) b), c) := by
  rw [render_attrs.eq_def]
  rfl

/-- **C10**: in the generic fallback, a tuple whose type declares named
fields (`_fields` present — a namedtuple) is dispatched to the attribute-bag
renderer on the fields zipped with the positional elements in declared
order, not to the positional-sequence renderer. -/
theorem C10_namedtuple_dispatch (E : Env) (f : Nat) (obj : Nat) (b : Int)
    (c : Ctx) (fields : List String) (elems : List Nat)
    (h : (E.heap.lookup obj).shape = .tupleV (some fields) elems) :
    _render_generic E f obj b c =
      render_attrs E f (fields.zip elems) (E.heap.lookup obj).typeName b
        c := by
  rw [_render_generic.eq_def]
  simp only [h]
  rw [_render_namedtuple.eq_def]

theorem C10_witness :
    _render_generic ⟨pointHeap, emptyReg, .greedy⟩ 4 0 50 (some ∅) =
      render_attrs ⟨pointHeap, emptyReg, .greedy⟩ 4 [("x", 1), ("y", 2)]
        "Point" 50 (some ∅) :=
  C10_namedtuple_dispatch ⟨pointHeap, emptyReg, .greedy⟩ 4 0 50 (some ∅)
    ["x", "y"] [1, 2] (by rfl)

set_option maxHeartbeats 4000000 in
set_option maxRecDepth 2000 in
/-- **C2** (cycle termination): with no hooks and an empty registry —
the generic engine on its own — `render` returns successfully on every
finite object graph, every budget and both policies (the recursion is
fuel-bounded by `defaultFuel`, shown sufficient via `ok_child`); and on the
self-referencing list, dict and object the output carries the
circular-reference marker `<...>` within budget. -/
theorem C2_cycle_termination :
    (∀ (heap : Heap) (reg : Registry) (obj : Nat) (b : Int) (pol : Policy)
      (c0 : Ctx), (∀ cl ∈ heap.cells, cl.hook = none) →
      (∀ k, reg k = none) →
      ∃ s, render heap reg obj b pol c0 = (.ok s, c0)) ∧
    (render selfListHeap emptyReg 0 100 .greedy none =
      (.ok (txt "[1, 2, <...>]"), none) ∧
      List.IsInfix CIRCULAR (txt "[1, 2, <...>]") ∧
      (txt "[1, 2, <...>]").length ≤ 100) ∧
    (render selfDictHeap emptyReg 0 100 .greedy none =
      (.ok (txt "\x7b'self': <...>\x7d"), none) ∧
      List.IsInfix CIRCULAR (txt "\x7b'self': <...>\x7d") ∧
      (txt "\x7b'self': <...>\x7d").length ≤ 100) ∧
    (render selfObjHeap emptyReg 0 100 .greedy none =
      (.ok (txt "Node(child=<...>)"), none) ∧
      List.IsInfix CIRCULAR (txt "Node(child=<...>)") ∧
      (txt "Node(child=<...>)").length ≤ 100) := by
  refine ⟨?gen, ⟨?e1, by decide, by decide⟩, ⟨?e2, by decide, by decide⟩,
    ⟨?e3, by decide, by decide⟩⟩
  case gen =>
    intro heap reg obj b pol c0 hH hR
    have hgap : guardGap ⟨heap, reg, pol⟩ (∅ : Finset Nat) <
        defaultFuel heap := by
      simp [guardGap, defaultFuel]
    have hok := ok_child ⟨heap, reg, pol⟩ hH hR (defaultFuel heap) obj b ∅
      hgap
    rw [render]
    cases hc : render_child ⟨heap, reg, pol⟩ (defaultFuel heap) obj b
        (some ∅) with
    | mk res c' =>
      rw [hc] at hok
      cases res with
      | error e => exact Bool.noConfusion hok
      | ok s => exact ⟨s, rfl⟩
  case e1 =>
    rw [render]
    simp +decide [render_child.eq_def, _render_inner.eq_def,
      _render_generic.eq_def, _render_sequence.eq_def, seqLoop.eq_def,
      render_primitive, MIN_BUDGET, MIN_CHILD_BUDGET, CIRCULAR, defaultFuel,
      Heap.lookup, emptyReg, get_renderer, Shape.isExempt, selfListHeap,
      listCell, intCell, pySlice, txt, joinComma]
    all_goals decide
  case e2 =>
    rw [render]
    simp +decide [render_child.eq_def, _render_inner.eq_def,
      _render_generic.eq_def, _render_dict.eq_def, dictLoop.eq_def,
      render_str, pyReprStr, MIN_BUDGET, MIN_CHILD_BUDGET, CIRCULAR,
      defaultFuel, Heap.lookup, emptyReg, get_renderer, Shape.isExempt,
      selfDictHeap, dictCell, strCell, pySlice, txt, joinComma,
      String.length, Finset.mem_insert, Finset.mem_singleton,
      Finset.not_mem_empty]
    all_goals decide
  case e3 =>
    rw [render]
    simp +decide [render_child.eq_def, _render_inner.eq_def,
      _render_generic.eq_def, _render_object.eq_def, render_attrs.eq_def,
      attrsPhase1.eq_def, attrsPhase2, MIN_BUDGET, MIN_CHILD_BUDGET,
      CIRCULAR, defaultFuel, Heap.lookup, emptyReg, get_renderer,
      Shape.isExempt, isDefaultRepr, selfObjHeap, pySlice, txt, joinComma,
      String.length, Finset.mem_insert, Finset.mem_singleton,
      Finset.not_mem_empty]
    all_goals decide

set_option maxHeartbeats 4000000 in
set_option maxRecDepth 2000 in
/-- **C4** (cycle-guard invariant): (1) `render_child` returns the `_seen`
state exactly as received — the identity inserted on entry is erased on
exit on the success *and* the exception path (all error outcomes included);
(2) hence a value occurring twice as siblings (a DAG) renders fully both
times with no circular marker; (3) `render` restores the caller's
contextvar state on every outcome, and its result does not depend on the
ambient state, so a second sequential `render` is unaffected by the first
call's guard. -/
theorem C4_cycle_guard_invariant :
    (∀ (E : Env) (f : Nat) (obj : Nat) (b : Int) (c : Ctx),
      (render_child E f obj b c).2 = c) ∧
    (render dagHeap emptyReg 0 100 .greedy none =
      (.ok (txt "[[7], [7]]"), none) ∧
      ¬ List.IsInfix CIRCULAR (txt "[[7], [7]]")) ∧
    (∀ (heap : Heap) (reg : Registry) (obj : Nat) (b : Int) (pol : Policy)
      (c0 c0' : Ctx),
      (render heap reg obj b pol c0).2 = c0 ∧
      (render heap reg obj b pol c0).1 =
        (render heap reg obj b pol c0').1) := by
  refine ⟨fun E f obj b c => ctx_child f E obj b c, ⟨?dag, by decide⟩,
    ?indep⟩
  case indep =>
    intro heap reg obj b pol c0 c0'
    constructor
    · rw [render]
    · rw [render, render]
  case dag =>
    rw [render]
    simp +decide [render_child.eq_def, _render_inner.eq_def,
      _render_generic.eq_def, _render_sequence.eq_def, seqLoop.eq_def,
      render_primitive, MIN_BUDGET, MIN_CHILD_BUDGET, CIRCULAR, defaultFuel,
      Heap.lookup, emptyReg, get_renderer, Shape.isExempt, dagHeap,
      listCell, intCell, pySlice, txt, joinComma]
    all_goals decide

/-- **C5** (dispatch priority): inside an active call `_render_inner`
resolves in order — a `__budget_repr__` hook wins (its output clipped to
budget, any registry entry ignored), else the registry formatter found by
walking the MRO (clipped), else the generic fallback; and `get_renderer`
walks the ancestor chain so an unregistered subtype inherits the nearest
registered ancestor's formatter. -/
theorem C5_dispatch_priority (E : Env) (f : Nat) (obj : Nat) (b : Int)
    (c : Ctx) :
    (∀ m, (E.heap.lookup obj).hook = some m →
      _render_inner E f obj b c =
        match m obj b with
        | .ok s => (.ok (pySlice s b), c)
        | .error _ => (.error .hookFail, c)) ∧
    ((E.heap.lookup obj).hook = none →
      ∀ r, get_renderer E.reg (E.heap.lookup obj).mro = some r →
      _render_inner E f obj b c =
        match r obj b with
        | .ok s => (.ok (pySlice s b), c)
        | .error _ => (.error .hookFail, c)) ∧
    ((E.heap.lookup obj).hook = none →
      get_renderer E.reg (E.heap.lookup obj).mro = none →
      _render_inner E f obj b c = _render_generic E f obj b c) ∧
    (∀ k rest, E.reg k = none →
      get_renderer E.reg (k :: rest) = get_renderer E.reg rest) ∧
    (∀ k rest r, E.reg k = some r →
      get_renderer E.reg (k :: rest) = some r) := by
  refine ⟨?h1, ?h2, ?h3, ?h4, ?h5⟩
  case h1 =>
    intro m hm
    rw [_render_inner.eq_def]
    simp only [hm]
  case h2 =>
    intro hn r hr
    rw [_render_inner.eq_def]
    simp only [hn, hr]
  case h3 =>
    intro hn hr
    rw [_render_inner.eq_def]
    simp only [hn, hr]
  case h4 =>
    intro k rest hk
    rw [get_renderer]
    simp only [hk]
  case h5 =>
    intro k rest r hk
    rw [get_renderer]
    simp only [hk]

theorem C5_witness :
    _render_inner ⟨hookHeap, baseReg, .greedy⟩ 0 0 30 none =
      (.ok (txt "proto"), none) ∧
    get_renderer baseReg ["Sub", "Base", "object"] =
      get_renderer baseReg ["Base", "object"] := by
  constructor
  · exact ((C5_dispatch_priority ⟨hookHeap, baseReg, .greedy⟩ 0 0 30
      none).1 _ rfl).trans (by rfl)
  · exact (C5_dispatch_priority ⟨hookHeap, baseReg, .greedy⟩ 0 0 30
      none).2.2.2.1 "Sub" ["Base", "object"] (by rfl)

/-- **C8** counterexample: the claim quantifies over every budget ≥ 0, but
below `MIN_BUDGET` the floor check returns the clipped placeholder before
any container is inspected: `render({}, 3)` is `"..."`, not `"{}"`. -/
theorem C8_counterexample_small_budget :
    render c8DictHeap emptyReg 0 3 .greedy none =
      (.ok (txt "..."), none) ∧ txt "..." ≠ txt "\x7b\x7d" := by
  constructor
  · rw [render, render_child.eq_def]
    norm_num [MIN_BUDGET, pySlice, txt]
  · decide

/-- **C8** (amended): for every budget ≥ `MIN_BUDGET` (5), on an object
with no hook and no registered formatter, `render` of an empty dict is
`{}`, of an empty list `[]`, of an empty tuple `()`, and of an empty set
`set()`. -/
theorem C8_empty_containers (heap : Heap) (reg : Registry) (obj : Nat)
    (b : Int) (pol : Policy) (hb : MIN_BUDGET ≤ b)
    (hh : (heap.lookup obj).hook = none)
    (hr : get_renderer reg (heap.lookup obj).mro = none) :
    ((heap.lookup obj).shape = .dictV [] →
      render heap reg obj b pol none = (.ok (txt "\x7b\x7d"), none)) ∧
    ((heap.lookup obj).shape = .listV [] →
      render heap reg obj b pol none = (.ok (txt "[]"), none)) ∧
    ((heap.lookup obj).shape = .tupleV none [] →
      render heap reg obj b pol none = (.ok (txt "()"), none)) ∧
    ((heap.lookup obj).shape = .setV false [] →
      render heap reg obj b pol none = (.ok (txt "set()"), none)) := by
  refine ⟨?hd, ?hl, ?ht, ?hs⟩ <;> intro hshape <;>
    rw [render_via_generic heap reg obj b pol none hb
      (by rw [hshape]; rfl) hh hr] <;>
    rw [_render_generic.eq_def] <;> simp only [hshape]
  case hd => rw [_render_dict.eq_def]; rfl
  case hl => rw [_render_sequence.eq_def]; rfl
  case ht => rw [_render_sequence.eq_def]; rfl
  case hs =>
    rw [_render_set.eq_def]
    simp only [List.isEmpty_nil, if_true]
    rw [pySlice_eq_self (le_trans (by decide) hb)]
    rfl

theorem C8_witness :
    render c8DictHeap emptyReg 0 9 .greedy none =
      (.ok (txt "\x7b\x7d"), none) ∧
    render c8ListHeap emptyReg 0 9 .greedy none =
      (.ok (txt "[]"), none) ∧
    render c8TupleHeap emptyReg 0 9 .greedy none =
      (.ok (txt "()"), none) ∧
    render c8SetHeap emptyReg 0 9 .greedy none =
      (.ok (txt "set()"), none) := by
  refine ⟨?_, ?_, ?_, ?_⟩
  · exact (C8_empty_containers c8DictHeap emptyReg 0 9 .greedy
      (by norm_num [MIN_BUDGET]) rfl rfl).1 rfl
  · exact (C8_empty_containers c8ListHeap emptyReg 0 9 .greedy
      (by norm_num [MIN_BUDGET]) rfl rfl).2.1 rfl
  · exact (C8_empty_containers c8TupleHeap emptyReg 0 9 .greedy
      (by norm_num [MIN_BUDGET]) rfl rfl).2.2.1 rfl
  · exact (C8_empty_containers c8SetHeap emptyReg 0 9 .greedy
      (by norm_num [MIN_BUDGET]) rfl rfl).2.2.2 rfl

/-- **C6** (omission honesty): whenever a dict/list/tuple/set rendering
carries a `...K more` marker, `K` plus the number of entries actually shown
(for sequences: head entries plus the tail entry when one is rendered)
equals the true entry count.  Stated over the entry loops: the emitted
parts and the shown-counter move in lockstep, and each assembly branch
displays exactly `total - shown` in its marker. -/
theorem C6_omission_honesty :
    (∀ (E : Env) (f : Nat) (entries : List (Nat × Nat)) (b : Int) (c : Ctx)
      (parts : List Text) (shown : Nat) (c' : Ctx),
      ((txt ("\x7b..." ++ toString entries.length ++ " items\x7d")).length :
        Int) < b →
      dictLoop E f entries entries.length 0 (b - 2) [] c =
        (.ok (parts, shown), c') →
      shown < entries.length →
      _render_dict E f entries b c =
        (.ok (txt "\x7b" ++ joinComma (parts ++
          [txt ("..." ++ toString (entries.length - shown) ++ " more")]) ++
          txt "\x7d"), c') ∧
      parts.length = shown ∧
      (entries.length - shown) + shown = entries.length) ∧
    (∀ (E : Env) (f : Nat) (isTuple : Bool) (elems : List Nat) (b : Int)
      (c : Ctx) (hp : List Text) (hi : Nat) (rem : Int) (c' : Ctx),
      (((if isTuple then txt "(" else txt "[") ++
        txt ("..." ++ toString elems.length ++ " items") ++
        (if isTuple then txt ")" else txt "]")).length : Int) < b →
      seqLoop E f elems elems.length 0 (b - 2) [] c =
        (.ok (hp, hi, rem), c') →
      hp.length = hi ∧ hi ≤ elems.length ∧
      (0 < elems.length - hi →
        ¬(elems.length - hi > 1 ∧ rem > MIN_CHILD_BUDGET + 15) →
        _render_sequence E f isTuple elems b c =
          (.ok ((if isTuple then txt "(" else txt "[") ++
            joinComma (hp ++
              [txt ("..." ++ toString (elems.length - hi) ++ " more")]) ++
            (if isTuple then txt ")" else txt "]")), c') ∧
        (elems.length - hi) + hp.length = elems.length) ∧
      (∀ tailR c'', elems.length - hi > 1 →
        rem > MIN_CHILD_BUDGET + 15 →
        MIN_CHILD_BUDGET ≤ min (rem -
          ((txt (", ..." ++ toString (elems.length - hi - 1) ++
            " more, ")).length : Int)) (rem.fdiv 3) →
        render_child E f (elems.getLast?.getD 0)
          (min (rem - ((txt (", ..." ++ toString (elems.length - hi - 1) ++
            " more, ")).length : Int)) (rem.fdiv 3)) c' =
          (.ok tailR, c'') →
        _render_sequence E f isTuple elems b c =
          (.ok ((if isTuple then txt "(" else txt "[") ++
            joinComma (hp ++
              [txt ("..." ++ toString (elems.length - hi - 1) ++ " more")]
              ++ [tailR]) ++
            (if isTuple then txt ")" else txt "]")), c'') ∧
        (elems.length - hi - 1) + (hp.length + 1) = elems.length)) ∧
    (∀ (E : Env) (f : Nat) (frozen : Bool) (elems : List Nat) (b : Int)
      (c : Ctx) (parts : List Text) (shown : Nat) (c' : Ctx),
      ((((if frozen then txt "frozenset(" else txt "") ++ txt "\x7b") ++
        txt ("..." ++ toString elems.length ++ " items") ++
        (txt "\x7d" ++ (if frozen then txt ")" else txt ""))).length : Int) <
        b →
      setLoop E f elems elems.length 0
        (b - (((if frozen then txt "frozenset(" else txt "") ++
          txt "\x7b").length : Int) -
          ((txt "\x7d" ++ (if frozen then txt ")" else txt "")).length : Int))
        [] c = (.ok (parts, shown), c') →
      shown < elems.length →
      _render_set E f frozen elems b c =
        (.ok (((if frozen then txt "frozenset(" else txt "") ++ txt "\x7b") ++
          joinComma (parts ++
            [txt ("..." ++ toString (elems.length - shown) ++ " more")]) ++
          (txt "\x7d" ++ (if frozen then txt ")" else txt ""))), c') ∧
      parts.length = shown ∧
      (elems.length - shown) + shown = elems.length) := by
  refine ⟨?hdict, ?hseq, ?hset⟩
  case hdict =>
    intro E f entries b c parts shown c' htag hloop hshown
    have hcnt := dictLoop_count E f entries entries.length 0 (b - 2) [] c
      parts shown c' hloop
    have hne : entries.isEmpty = false := by
      cases entries
      · exact absurd hshown (by simp)
      · rfl
    refine ⟨?_, ?_, ?_⟩
    · rw [_render_dict.eq_def]
      simp only [hne, Bool.false_eq_true, if_false,
        if_neg (not_lt.mpr (le_of_lt htag)), if_neg (not_le.mpr htag),
        hloop]
      rw [if_pos (by omega : entries.length - shown > 0)]
    · simpa using hcnt.1
    · omega
  case hseq =>
    intro E f isTuple elems b c hp hi rem c' htag hloop
    have hcnt := seqLoop_count E f elems elems.length 0 (b - 2) [] c hp hi
      rem c' hloop
    refine ⟨by simpa using hcnt.1, by omega, ?notail, ?tail⟩
    case notail =>
      intro hleft htail
      have hne : elems.isEmpty = false := by
        cases elems
        · exact absurd hleft (by simp)
        · rfl
      constructor
      · rw [_render_sequence.eq_def]
        simp only [hne, Bool.false_eq_true, if_false,
          if_neg (not_le.mpr htag), hloop]
        rw [if_neg (by exact_mod_cast htail)]
        rw [if_pos (by omega : elems.length - hi > 0)]
      · have h1 : hp.length = hi := by simpa using hcnt.1
        omega
    case tail =>
      intro tailR c'' hgt hrem htb hT
      have hne : elems.isEmpty = false := by
        cases elems
        · exact absurd hgt (by simp)
        · rfl
      constructor
      · rw [_render_sequence.eq_def]
        simp only [hne, Bool.false_eq_true, if_false,
          if_neg (not_le.mpr htag), hloop]
        rw [if_pos (by exact ⟨hgt, hrem⟩)]
        rw [if_pos htb, hT]
        rw [if_pos (by omega : elems.length - hi - 1 > 0)]
      · have h1 : hp.length = hi := by simpa using hcnt.1
        omega
  case hset =>
    intro E f frozen elems b c parts shown c' htag hloop hshown
    have hcnt := setLoop_count E f elems elems.length 0
      (b - (((if frozen then txt "frozenset(" else txt "") ++
        txt "\x7b").length : Int) -
        ((txt "\x7d" ++ (if frozen then txt ")" else txt "")).length : Int))
      [] c parts shown c' hloop
    have hne : elems.isEmpty = false := by
      cases elems
      · exact absurd hshown (by simp)
      · rfl
    refine ⟨?_, ?_, ?_⟩
    · rw [_render_set.eq_def]
      simp only [hne, Bool.false_eq_true, if_false,
        if_neg (not_le.mpr htag), hloop]
      rw [if_pos (by omega : elems.length - shown > 0)]
    · simpa using hcnt.1
    · omega

theorem C6_witness :
    _render_dict ⟨c6DictHeap, emptyReg, .greedy⟩ 7 [(1, 2), (3, 4), (5, 6)]
      34 (some {0}) = (.ok (txt "\x7b'k1': 5, ...2 more\x7d"), some {0}) ∧
    (2 + 1 = 3) ∧
    _render_sequence ⟨c6ListHeap, emptyReg, .greedy⟩ 6 false [1, 2, 3] 30
      (some {0}) =
      (.ok (txt "['aaaaaaaaaaaa...', ...2 more]"), some {0}) ∧
    _render_set ⟨c6SetHeap, emptyReg, .greedy⟩ 6 false [1, 2, 3] 30
      (some {0}) =
      (.ok (txt "\x7b'aaaaaaaaaaaa...', ...2 more\x7d"), some {0}) := by
  have hdl : dictLoop ⟨c6DictHeap, emptyReg, .greedy⟩ 7
      [(1, 2), (3, 4), (5, 6)] 3 0 32 [] (some {0}) =
      (.ok ([txt "'k1': 5"], 1), some {0}) := by
    simp +decide [dictLoop.eq_def, render_child.eq_def, _render_inner.eq_def,
      _render_generic.eq_def, render_str, render_primitive, pyReprStr,
      MIN_BUDGET, MIN_CHILD_BUDGET, Heap.lookup, emptyReg, get_renderer,
      Shape.isExempt, c6DictHeap, dictCell, strCell, intCell, pySlice, txt]
  have hsl : seqLoop ⟨c6ListHeap, emptyReg, .greedy⟩ 6 [1, 2, 3] 3 0 28 []
      (some {0}) = (.ok ([txt "'aaaaaaaaaaaa...'"], 1, 11), some {0}) := by
    simp +decide [seqLoop.eq_def, render_child.eq_def, _render_inner.eq_def,
      _render_generic.eq_def, render_str, pyReprStr, MIN_BUDGET,
      MIN_CHILD_BUDGET, Heap.lookup, emptyReg, get_renderer, Shape.isExempt,
      c6ListHeap, listCell, strCell, pySlice, txt]
  have hstl : setLoop ⟨c6SetHeap, emptyReg, .greedy⟩ 6 [1, 2, 3] 3 0 28 []
      (some {0}) = (.ok ([txt "'aaaaaaaaaaaa...'"], 1), some {0}) := by
    simp +decide [setLoop.eq_def, render_child.eq_def, _render_inner.eq_def,
      _render_generic.eq_def, render_str, pyReprStr, MIN_BUDGET,
      MIN_CHILD_BUDGET, Heap.lookup, emptyReg, get_renderer, Shape.isExempt,
      c6SetHeap, strCell, pySlice, txt]
  refine ⟨?_, ?_, ?_, ?_⟩
  · exact ((C6_omission_honesty.1 ⟨c6DictHeap, emptyReg, .greedy⟩ 7
      [(1, 2), (3, 4), (5, 6)] 34 (some {0}) [txt "'k1': 5"] 1 (some {0})
      (by decide) hdl (by decide)).1).trans (by rfl)
  · exact (C6_omission_honesty.1 ⟨c6DictHeap, emptyReg, .greedy⟩ 7
      [(1, 2), (3, 4), (5, 6)] 34 (some {0}) [txt "'k1': 5"] 1 (some {0})
      (by decide) hdl (by decide)).2.2
  · exact (((C6_omission_honesty.2.1 ⟨c6ListHeap, emptyReg, .greedy⟩ 6
      false [1, 2, 3] 30 (some {0}) [txt "'aaaaaaaaaaaa...'"] 1 11
      (some {0}) (by decide) hsl).2.2.1 (by decide) (by decide)).1).trans
      (by rfl)
  · exact ((C6_omission_honesty.2.2 ⟨c6SetHeap, emptyReg, .greedy⟩ 6 false
      [1, 2, 3] 30 (some {0}) [txt "'aaaaaaaaaaaa...'"] 1 (some {0})
      (by decide) (by exact_mod_cast hstl) (by decide)).1).trans (by rfl)

/-- **C2** witness: the general success theorem applied to the concrete
self-referencing list with no hooks and an empty registry. -/
theorem C2_witness :
    ∃ s, render selfListHeap emptyReg 0 55 .greedy none = (.ok s, none) :=
  C2_cycle_termination.1 selfListHeap emptyReg 0 55 .greedy none
    (by
      intro cl hcl
      simp only [selfListHeap, listCell, intCell, List.mem_cons,
        List.not_mem_nil, or_false] at hcl
      rcases hcl with h | h | h <;> subst h <;> rfl)
    (fun _ => rfl)

end Reprobate
